import Mathlib

/-!
# Shallow embedding of `src/app.py` (SUCAN order-tracking tool)

This file embeds the core of `app.py` in Lean 4:

* the brand → arrival-channel table `BRAND_ARRIVAL` and `arrival_info`,
* the catalog search `filter_products`,
* the order store `load_orders` / `save_orders` (with legacy-field
  normalization),
* the lifecycle engine `create_order`, `update_order_status`,
  `save_signature`.

Modelling conventions:

* Python strings are Lean `String`; `str.strip()` is embedded as `pyStrip`
  and `str.upper()` as `pyUpper` (ASCII-level, matching the program's own
  comparisons, and computable by the kernel).
* `datetime.now().strftime("%Y-%m-%d %H:%M:%S")` produces timestamps whose
  lexicographic string order coincides with chronological order; we embed a
  timestamp as a `Nat` (the time at which the operation runs is an explicit
  parameter `now`, as is the fresh `uuid4()` id for `create_order`).
* A raised `ValueError` is `Except.error` carrying an `EngineError`
  constructor; the constructor ↔ message correspondence is recorded at the
  declaration of `EngineError`.
* The JSON document store is embedded by `StoredContent`; a Python crash
  (an exception that `load_orders` does not catch) is `Option.none`.
-/

/-- A row of the product catalog (`PADRON`), as built by `load_padron`
(`app.py` lines 62-77): the six string fields of each record. -/
structure Producto where
  codigo : String
  codigo_barra : String
  nombre : String
  fabricante : String
  marca : String
  tipo : String
deriving DecidableEq, Repr

/-- The product snapshot stored inside an order (`app.py` lines 150-155). -/
structure ProductoSnapshot where
  codigo : String
  nombre : String
  marca : String
  via : String
deriving DecidableEq, Repr

/-- An order document as held in memory after normalization: every field the
code reads or writes.  `fecha_solicitud` is the creation timestamp
(`requestedAt`); `fecha_llegada`/`fecha_aviso`/`fecha_entrega` are the
nullable transition timestamps; `firma` is the nullable signature blob. -/
structure Order where
  id : String
  fecha_solicitud : Nat
  sucursal : String
  producto : ProductoSnapshot
  cantidad : Int
  estado : String
  fecha_llegada : Option Nat
  fecha_aviso : Option Nat
  fecha_entrega : Option Nat
  firma : Option String
  observaciones : String
deriving DecidableEq, Repr

/-- The error taxonomy of the engine.  Each constructor stands for one
family of `ValueError` messages raised in `app.py`:

* `productNotFound`    ← "Producto no encontrado en padrón" (line 144)
* `orderNotFound`      ← "Pedido no encontrado" (lines 179, 214)
* `invalidTransition`  ← "Secuencia inválida: ya no está pendiente" (184),
  "Primero marca como Llegó" (189), "Primero marca como Avisado" (194)
* `signatureRequired`  ← "Captura la firma antes de entregar" (196)
* `invalidAction`      ← "Acción no válida" (200) -/
inductive EngineError where
  | productNotFound
  | orderNotFound
  | invalidTransition
  | signatureRequired
  | invalidAction
deriving DecidableEq, Repr

/-- Python's `str.strip()` on the character list: drop whitespace from both
ends. -/
def stripChars (l : List Char) : List Char :=
  ((l.dropWhile Char.isWhitespace).reverse.dropWhile Char.isWhitespace).reverse

/-- Python's `str.strip()`: remove leading and trailing whitespace. -/
def pyStrip (s : String) : String :=
  ⟨stripChars s.data⟩

/-- Python's `str.upper()`: upper-case every character. -/
def pyUpper (s : String) : String :=
  ⟨s.data.map Char.toUpper⟩

/-- The `BRAND_ARRIVAL` dict (`app.py` lines 17-25), as a lookup function:
`some label` when the key is present, `none` otherwise. -/
def BRAND_ARRIVAL (key : String) : Option String :=
  if key = "SUPRA" then some "Llega por orden de compra"
  else if key = "BELSIR" then some "Llega por orden de compra (día 2)"
  else if key = "USA PET" then some "Llega por orden de compra (día 3)"
  else if key = "DISTRICO" then some "Llega por orden de compra (día 3)"
  else if key = "DASLICAR" then some "Llega por orden de compra (día 5)"
  else if key = "FARMINA" then some "Llega por orden de compra (día 6)"
  else if key = "SADENIR" then some "Llega por orden de compra (día 4)"
  else none

/-- `arrival_info(brand)` (`app.py` lines 108-110): trim and upper-case the
brand, look it up in `BRAND_ARRIVAL`, and fall back to
"Encargar a Montevideo". -/
def arrival_info (brand : String) : String :=
  match BRAND_ARRIVAL (pyUpper (pyStrip brand)) with
  | some v => v
  | none => "Encargar a Montevideo"

/-- Boolean substring test on character lists: `containsSub q s` is `true`
iff `q` occurs contiguously inside `s` (the embedding of Python's
`q in text`). -/
def containsSub (q : List Char) : List Char → Bool
  | [] => q.isEmpty
  | c :: t => q.isPrefixOf (c :: t) || containsSub q t

/-- The searchable text of a catalog row (`app.py` lines 119-126):
`" ".join([codigo, codigo_barra, nombre, marca]).upper()`. -/
def searchText (item : Producto) : String :=
  pyUpper (item.codigo ++ " " ++ item.codigo_barra ++ " " ++ item.nombre
    ++ " " ++ item.marca)

/-- One search hit: the catalog row plus its computed `via` field
(`result = item.copy(); result["via"] = arrival_info(...)`,
`app.py` lines 128-130). -/
structure SearchResult where
  item : Producto
  via : String
deriving DecidableEq, Repr

/-- The `for item in PADRON` loop of `filter_products` (`app.py` lines
117-133), with `acc` the reversed `results` list built so far.  Note the
`if len(results) >= limit: break` test runs at the end of every iteration,
after a possible append. -/
def filterLoop (q : String) (limit : Nat) : List Producto → List SearchResult
    → List SearchResult
  | [], acc => acc.reverse
  | item :: rest, acc =>
    let acc' :=
      if containsSub q.toList (searchText item).toList then
        ⟨item, arrival_info item.marca⟩ :: acc
      else acc
    if limit ≤ acc'.length then acc'.reverse else filterLoop q limit rest acc'

/-- `filter_products(query, limit)` (`app.py` lines 113-133): trim and
upper-case the query, return `[]` on an empty result of that, and otherwise
scan the catalog in order collecting matches. -/
def filter_products (padron : List Producto) (query : String) (limit : Nat) :
    List SearchResult :=
  let q := pyUpper (pyStrip query)
  if q = "" then [] else filterLoop q limit padron []

/-- A stored order record as it sits in `orders.json`, before normalization.
The five fields that `load_orders` backfills with `setdefault` are wrapped:
the outer `Option` is `none` when the key is absent from the JSON object
(a legacy record), and for the nullable fields the inner `Option` is the
stored value, `none` being JSON `null`. -/
structure RawOrder where
  id : String
  fecha_solicitud : Nat
  sucursal : String
  producto : ProductoSnapshot
  cantidad : Int
  observaciones : String
  estado : Option String
  fecha_llegada : Option (Option Nat)
  fecha_aviso : Option (Option Nat)
  fecha_entrega : Option (Option Nat)
  firma : Option (Option String)
deriving DecidableEq, Repr

/-- The normalization body of `load_orders` (`app.py` lines 90-96): each of
the five lifecycle fields is defaulted only when its key is absent
(`o.setdefault`), with status defaulting to `"pendiente"` and the
timestamps/signature to `null`. -/
def normalizeOrder (o : RawOrder) : Order :=
  { id := o.id
    fecha_solicitud := o.fecha_solicitud
    sucursal := o.sucursal
    producto := o.producto
    cantidad := o.cantidad
    estado := o.estado.getD "pendiente"
    fecha_llegada := o.fecha_llegada.getD none
    fecha_aviso := o.fecha_aviso.getD none
    fecha_entrega := o.fecha_entrega.getD none
    firma := o.firma.getD none
    observaciones := o.observaciones }

/-- Re-serialization of a normalized order: after `load_orders` every one of
the five lifecycle keys is present in the dict, so `json.dump` writes them
all out (`save_orders`, `app.py` lines 103-105). -/
def orderToRaw (o : Order) : RawOrder :=
  { id := o.id
    fecha_solicitud := o.fecha_solicitud
    sucursal := o.sucursal
    producto := o.producto
    cantidad := o.cantidad
    observaciones := o.observaciones
    estado := some o.estado
    fecha_llegada := some o.fecha_llegada
    fecha_aviso := some o.fecha_aviso
    fecha_entrega := some o.fecha_entrega
    firma := some o.firma }

/-- The possible states of the `orders.json` file as seen by `load_orders`
(`app.py` lines 83-100):

* `missing`: `ORDERS_FILE.exists()` is false;
* `malformed s`: file content `s` makes `json.load` raise
  `json.JSONDecodeError` (not valid JSON);
* `jsonScalar n`: the file holds a bare JSON number, e.g. `42` — `json.load`
  succeeds, and `for o in raw` then raises an uncaught `TypeError`;
* `jsonArray l`: the file holds a JSON array of order objects. -/
inductive StoredContent where
  | missing : StoredContent
  | malformed : String → StoredContent
  | jsonScalar : Int → StoredContent
  | jsonArray : List RawOrder → StoredContent
deriving DecidableEq, Repr

/-- `load_orders()` (`app.py` lines 83-100).  `none` models a Python crash:
the `except` clause catches only `json.JSONDecodeError`, so content that
parses as JSON but is not an array of objects (here: a bare number) raises
`TypeError` out of `load_orders`. -/
def load_orders : StoredContent → Option (List Order)
  | .missing => some []
  | .malformed _ => some []
  | .jsonScalar _ => none
  | .jsonArray l => some (l.map normalizeOrder)

/-- `save_orders(orders)` (`app.py` lines 103-105): overwrite the file with
the full collection; every key of every (normalized) order is written. -/
def save_orders (orders : List Order) : StoredContent :=
  .jsonArray (orders.map orderToRaw)

/-- Truthiness of the `firma` field: `not target.get("firma")` in Python is
true for `None` and for the empty string (`app.py` line 195). -/
def firmaTruthy : Option String → Bool
  | none => false
  | some s => !(s = "")

/-- The per-order body of `update_order_status` (`app.py` lines 181-200):
dispatch on the action name, check the current status (and for delivery the
signature), and on success set the new status and stamp the corresponding
timestamp with `now`. -/
def applyAction (now : Nat) (action : String) (o : Order) :
    Except EngineError Order :=
  let current := o.estado
  if action = "llego" then
    if current ≠ "pendiente" then .error .invalidTransition
    else .ok { o with estado := "llegado", fecha_llegada := some now }
  else if action = "avisado" then
    if ¬(current = "llegado" ∨ current = "avisado") then
      .error .invalidTransition
    else .ok { o with estado := "avisado", fecha_aviso := some now }
  else if action = "entregado" then
    if ¬(current = "avisado" ∨ current = "entregado") then
      .error .invalidTransition
    else if ¬ firmaTruthy o.firma then .error .signatureRequired
    else .ok { o with estado := "entregado", fecha_entrega := some now }
  else .error .invalidAction

/-- `update_order_status(order_id, action)` (`app.py` lines 170-203), on the
loaded collection: find the first order with the given id (raising
`orderNotFound` when there is none), apply the action to it in place, and
save.  The returned pair is (the result returned/raised, the stored
collection afterwards); on any error the store is unchanged because the
exception propagates before `save_orders` — and `save_orders` writes back
the same list in any case. -/
def update_order_status (now : Nat) (order_id action : String) :
    List Order → Except EngineError Order × List Order
  | [] => (.error .orderNotFound, [])
  | o :: rest =>
    if o.id = order_id then
      match applyAction now action o with
      | .error e => (.error e, o :: rest)
      | .ok o' => (.ok o', o' :: rest)
    else
      let r := update_order_status now order_id action rest
      (r.1, o :: r.2)

/-- `save_signature(order_id, data_url)` (`app.py` lines 206-217): find the
first order with the given id (raising `orderNotFound` otherwise) and
overwrite its `firma` field, unconditionally. -/
def save_signature (order_id data_url : String) :
    List Order → Except EngineError Order × List Order
  | [] => (.error .orderNotFound, [])
  | o :: rest =>
    if o.id = order_id then
      (.ok { o with firma := some data_url }, { o with firma := some data_url } :: rest)
    else
      let r := save_signature order_id data_url rest
      (r.1, o :: r.2)

/-- The creation payload (`app.py` lines 137-140): the four fields
`create_order` reads from the request body. -/
structure Payload where
  codigo : String
  sucursal : String
  cantidad : Int
  observaciones : String
deriving DecidableEq, Repr

/-- The order dict built by `create_order` on success (`app.py` lines
146-163): status `pendiente`, null timestamps and signature, branch
defaulting to `"N/D"` when blank, and the product snapshot with its
computed arrival channel. -/
def createdOrder (newId : String) (now : Nat) (payload : Payload)
    (product : Producto) : Order :=
  { id := newId
    fecha_solicitud := now
    sucursal := if pyStrip payload.sucursal = "" then "N/D" else pyStrip payload.sucursal
    producto :=
      { codigo := product.codigo
        nombre := product.nombre
        marca := product.marca
        via := arrival_info product.marca }
    cantidad := payload.cantidad
    estado := "pendiente"
    fecha_llegada := none
    fecha_aviso := none
    fecha_entrega := none
    firma := none
    observaciones := pyStrip payload.observaciones }

/-- `create_order(payload)` (`app.py` lines 136-167), with the fresh
`uuid4()` id and the current time passed explicitly.  The product code is
resolved against the catalog (`next(...)` on the first exact `codigo`
match); on failure the `ValueError` propagates before any load or save, so
the stored collection is returned unchanged.  On success the new order is
prepended (`orders.insert(0, order)`). -/
def create_order (padron : List Producto) (newId : String) (now : Nat)
    (payload : Payload) (orders : List Order) :
    Except EngineError Order × List Order :=
  match padron.find? (fun p => p.codigo = pyStrip payload.codigo) with
  | none => (.error .productNotFound, orders)
  | some product =>
    (.ok (createdOrder newId now payload product),
      createdOrder newId now payload product :: orders)

/-! ## Helper lemmas about the engine -/

/-- One legal forward step of the status machine: either the status is left
alone or it moves along exactly one edge of
`pendiente → llegado → avisado → entregado`. -/
def estadoStep (s t : String) : Prop :=
  t = s ∨ (s = "pendiente" ∧ t = "llegado") ∨ (s = "llegado" ∧ t = "avisado")
    ∨ (s = "avisado" ∧ t = "entregado")

lemma estadoStep_refl (s : String) : estadoStep s s := Or.inl rfl

lemma applyAction_llego (now : Nat) (o : Order) :
    applyAction now "llego" o =
      if o.estado = "pendiente" then
        .ok { o with estado := "llegado", fecha_llegada := some now }
      else .error .invalidTransition := by
  by_cases h : o.estado = "pendiente" <;> simp [applyAction, h]

lemma applyAction_avisado (now : Nat) (o : Order) :
    applyAction now "avisado" o =
      if o.estado = "llegado" ∨ o.estado = "avisado" then
        .ok { o with estado := "avisado", fecha_aviso := some now }
      else .error .invalidTransition := by
  by_cases h : o.estado = "llegado" ∨ o.estado = "avisado" <;>
    simp [applyAction, h]

lemma applyAction_entregado (now : Nat) (o : Order) :
    applyAction now "entregado" o =
      if o.estado = "avisado" ∨ o.estado = "entregado" then
        (if firmaTruthy o.firma then
          .ok { o with estado := "entregado", fecha_entrega := some now }
        else .error .signatureRequired)
      else .error .invalidTransition := by
  by_cases h : o.estado = "avisado" ∨ o.estado = "entregado" <;>
    by_cases hf : firmaTruthy o.firma <;> simp [applyAction, h, hf]

lemma applyAction_unknown (now : Nat) (a : String) (o : Order)
    (h1 : a ≠ "llego") (h2 : a ≠ "avisado") (h3 : a ≠ "entregado") :
    applyAction now a o = .error .invalidAction := by
  simp [applyAction, h1, h2, h3]

/-- Success cases of `applyAction`: the action is one of the three known
names, its status precondition held, and the result order is the input with
exactly the status and the action's timestamp updated. -/
lemma applyAction_ok_cases {now : Nat} {a : String} {o o' : Order}
    (h : applyAction now a o = .ok o') :
    (a = "llego" ∧ o.estado = "pendiente" ∧
        o' = { o with estado := "llegado", fecha_llegada := some now }) ∨
    (a = "avisado" ∧ (o.estado = "llegado" ∨ o.estado = "avisado") ∧
        o' = { o with estado := "avisado", fecha_aviso := some now }) ∨
    (a = "entregado" ∧ (o.estado = "avisado" ∨ o.estado = "entregado") ∧
        firmaTruthy o.firma = true ∧
        o' = { o with estado := "entregado", fecha_entrega := some now }) := by
  by_cases h1 : a = "llego"
  · subst h1
    rw [applyAction_llego] at h
    split_ifs at h with hp
    exact Or.inl ⟨rfl, hp, by injection h with h2; exact h2.symm⟩
  by_cases h2 : a = "avisado"
  · subst h2
    rw [applyAction_avisado] at h
    split_ifs at h with hp
    exact Or.inr (Or.inl ⟨rfl, hp, by injection h with h3; exact h3.symm⟩)
  by_cases h3 : a = "entregado"
  · subst h3
    rw [applyAction_entregado] at h
    split_ifs at h with hp hf
    exact Or.inr (Or.inr ⟨rfl, hp, hf, by injection h with h4; exact h4.symm⟩)
  · rw [applyAction_unknown now a o h1 h2 h3] at h
    simp at h

/-- `update_order_status` where the first id match in the collection is the
explicit order `o`: the result is `applyAction` on `o`, the prefix and
suffix are untouched, and on error the collection is returned unchanged. -/
lemma update_firstMatch (now : Nat) (oid a : String) (pre post : List Order)
    (o : Order) (hpre : ∀ x ∈ pre, x.id ≠ oid) (ho : o.id = oid) :
    update_order_status now oid a (pre ++ o :: post) =
      match applyAction now a o with
      | .error e => (.error e, pre ++ o :: post)
      | .ok o' => (.ok o', pre ++ o' :: post) := by
  induction pre with
  | nil =>
    cases hA : applyAction now a o with
    | error e => simp [update_order_status, ho, hA]
    | ok o2 => simp [update_order_status, ho, hA]
  | cons x xs ih =>
    have hx : x.id ≠ oid := hpre x (by simp)
    have ih' := ih (fun y hy => hpre y (by simp [hy]))
    cases hA : applyAction now a o with
    | error e =>
      rw [hA] at ih'
      simp [update_order_status, hx, ih', hA]
    | ok o2 =>
      rw [hA] at ih'
      simp [update_order_status, hx, ih', hA]

/-- `save_signature` where the first id match is the explicit order `o`:
the signature of `o` is overwritten and everything else is untouched. -/
lemma save_signature_firstMatch (oid blob : String) (pre post : List Order)
    (o : Order) (hpre : ∀ x ∈ pre, x.id ≠ oid) (ho : o.id = oid) :
    save_signature oid blob (pre ++ o :: post) =
      (.ok { o with firma := some blob },
        pre ++ { o with firma := some blob } :: post) := by
  induction pre with
  | nil => simp [save_signature, ho]
  | cons x xs ih =>
    have hx : x.id ≠ oid := hpre x (by simp)
    have ih' := ih (fun y hy => hpre y (by simp [hy]))
    simp [save_signature, hx, ih']

/-- Any successful `applyAction` moves the status along at most one forward
edge of the lifecycle. -/
lemma applyAction_estadoStep {now : Nat} {a : String} {o o' : Order}
    (h : applyAction now a o = .ok o') : estadoStep o.estado o'.estado := by
  rcases applyAction_ok_cases h with ⟨_, hp, rfl⟩ | ⟨_, hp, rfl⟩ | ⟨_, hp, _, rfl⟩
  · exact Or.inr (Or.inl ⟨hp, rfl⟩)
  · rcases hp with hp | hp
    · exact Or.inr (Or.inr (Or.inl ⟨hp, rfl⟩))
    · exact Or.inl hp.symm
  · rcases hp with hp | hp
    · exact Or.inr (Or.inr (Or.inr ⟨hp, rfl⟩))
    · exact Or.inl hp.symm

/-- Elementwise: `update_order_status` moves every status at most one
forward step (most orders are untouched, the target moves along one edge or
is left as is). -/
lemma update_estado_step (now : Nat) (oid a : String) (orders : List Order) :
    List.Forall₂ (fun o o' => estadoStep o.estado o'.estado) orders
      (update_order_status now oid a orders).2 := by
  induction orders with
  | nil => simp [update_order_status]
  | cons o rest ih =>
    by_cases ho : o.id = oid
    · cases hA : applyAction now a o with
      | error e =>
        simp only [update_order_status, if_pos ho, hA]
        exact List.Forall₂.cons (estadoStep_refl _)
          (List.forall₂_same.mpr fun x _ => estadoStep_refl _)
      | ok o' =>
        simp only [update_order_status, if_pos ho, hA]
        exact List.Forall₂.cons (applyAction_estadoStep hA)
          (List.forall₂_same.mpr fun x _ => estadoStep_refl _)
    · simp only [update_order_status, if_neg ho]
      exact List.Forall₂.cons (estadoStep_refl _) ih

/-- Elementwise: `save_signature` never changes any status. -/
lemma save_signature_estado (oid blob : String) (orders : List Order) :
    List.Forall₂ (fun o o' => o'.estado = o.estado) orders
      (save_signature oid blob orders).2 := by
  induction orders with
  | nil => simp [save_signature]
  | cons o rest ih =>
    by_cases ho : o.id = oid
    · simp only [save_signature, if_pos ho]
      exact List.Forall₂.cons rfl (List.forall₂_same.mpr fun x _ => rfl)
    · simp only [save_signature, if_neg ho]
      exact List.Forall₂.cons rfl ih

/-- `create_order` either fails leaving the collection exactly as it was,
or succeeds prepending exactly the created order. -/
lemma create_order_cases (padron : List Producto) (newId : String)
    (now : Nat) (payload : Payload) (orders : List Order) :
    (create_order padron newId now payload orders
        = (.error .productNotFound, orders)) ∨
    (∃ product, create_order padron newId now payload orders
        = (.ok (createdOrder newId now payload product),
            createdOrder newId now payload product :: orders)) := by
  unfold create_order
  cases padron.find? (fun p => p.codigo = pyStrip payload.codigo) with
  | none => exact Or.inl rfl
  | some product => exact Or.inr ⟨product, rfl⟩

/-- A stored record is complete when each of the five normalizable keys is
present (its value may still be JSON `null`): exactly the records
`save_orders` itself produces. -/
def rawComplete (r : RawOrder) : Prop :=
  r.estado.isSome ∧ r.fecha_llegada.isSome ∧ r.fecha_aviso.isSome
    ∧ r.fecha_entrega.isSome ∧ r.firma.isSome

/-- Normalization followed by re-serialization is the identity on complete
stored records. -/
lemma orderToRaw_normalizeOrder (r : RawOrder) (h : rawComplete r) :
    orderToRaw (normalizeOrder r) = r := by
  obtain ⟨h1, h2, h3, h4, h5⟩ := h
  obtain ⟨e, he⟩ := Option.isSome_iff_exists.mp h1
  obtain ⟨a, ha⟩ := Option.isSome_iff_exists.mp h2
  obtain ⟨b, hb⟩ := Option.isSome_iff_exists.mp h3
  obtain ⟨c, hc⟩ := Option.isSome_iff_exists.mp h4
  obtain ⟨d, hd⟩ := Option.isSome_iff_exists.mp h5
  cases r
  simp only at he ha hb hc hd
  subst he ha hb hc hd
  simp [orderToRaw, normalizeOrder]

/-! ## Concrete sample data for witnesses and counterexamples -/

/-- A sample catalog row. -/
def sampleProducto : Producto :=
  { codigo := "A1", codigo_barra := "7791234567", nombre := "Kibble Mix"
    fabricante := "Farmina SpA", marca := "FARMINA", tipo := "Alimento" }

/-- The product snapshot of `sampleProducto`. -/
def sampleSnapshot : ProductoSnapshot :=
  { codigo := "A1", nombre := "Kibble Mix", marca := "FARMINA"
    via := "Llega por orden de compra (día 6)" }

/-- A freshly created sample order (status `pendiente`). -/
def ordBase : Order :=
  { id := "o1", fecha_solicitud := 1, sucursal := "PDE"
    producto := sampleSnapshot, cantidad := 2, estado := "pendiente"
    fecha_llegada := none, fecha_aviso := none, fecha_entrega := none
    firma := none, observaciones := "" }

/-- `ordBase` after arrival and notification, still unsigned. -/
def ordAvisado : Order :=
  { ordBase with estado := "avisado", fecha_llegada := some 2, fecha_aviso := some 3 }

/-- `ordBase` after the full lifecycle: delivered, with a signature. -/
def ordEntregado : Order :=
  { ordAvisado with estado := "entregado", fecha_entrega := some 4, firma := some "sigblob" }

/-- A second stored order with a different id. -/
def ordOther : Order :=
  { ordBase with id := "o0" }

/-- A creation payload whose product code is in the sample catalog. -/
def goodPayload : Payload :=
  { codigo := "A1", sucursal := " PDE ", cantidad := 2, observaciones := "" }

/-- A creation payload whose product code is absent from the sample
catalog. -/
def badPayload : Payload :=
  { codigo := "B9", sucursal := "PDE", cantidad := 1, observaciones := "" }

/-- A complete stored record with null timestamps and signature. -/
def rawSample : RawOrder :=
  { id := "o1", fecha_solicitud := 1, sucursal := "PDE"
    producto := sampleSnapshot, cantidad := 2, observaciones := ""
    estado := some "pendiente", fecha_llegada := some none
    fecha_aviso := some none, fecha_entrega := some none, firma := some none }

/-- A legacy stored record missing all five normalizable keys. -/
def rawLegacy : RawOrder :=
  { id := "L1", fecha_solicitud := 0, sucursal := "MDO"
    producto := sampleSnapshot, cantidad := 1, observaciones := ""
    estado := none, fecha_llegada := none
    fecha_aviso := none, fecha_entrega := none, firma := none }

/-- `ordBase` after arrival only. -/
def ordLlegado : Order :=
  { ordBase with estado := "llegado", fecha_llegada := some 2 }

/-- `ordLlegado` after a notification stamped at time 7. -/
def ordNotified7 : Order :=
  { ordLlegado with estado := "avisado", fecha_aviso := some 7 }

/-! ## Timestamp ordering invariants -/

/-- Every timestamp in `a` is at most every timestamp in `b` (vacuous when
either is null). -/
def leOpt (a b : Option Nat) : Prop :=
  ∀ x ∈ a, ∀ y ∈ b, x ≤ y

/-- The monotonicity invariant of the spec: whenever set, the timestamps
satisfy `fecha_solicitud ≤ fecha_llegada ≤ fecha_aviso ≤ fecha_entrega`. -/
def tsMono (o : Order) : Prop :=
  (∀ t ∈ o.fecha_llegada, o.fecha_solicitud ≤ t) ∧
  (∀ t ∈ o.fecha_aviso, o.fecha_solicitud ≤ t) ∧
  (∀ t ∈ o.fecha_entrega, o.fecha_solicitud ≤ t) ∧
  leOpt o.fecha_llegada o.fecha_aviso ∧
  leOpt o.fecha_llegada o.fecha_entrega ∧
  leOpt o.fecha_aviso o.fecha_entrega

/-- Which timestamps can be set in which status, in every engine-reachable
state: later-stage timestamps are still null in earlier states. -/
def estadoFields (o : Order) : Prop :=
  (o.estado = "pendiente" →
    o.fecha_llegada = none ∧ o.fecha_aviso = none ∧ o.fecha_entrega = none) ∧
  (o.estado = "llegado" → o.fecha_aviso = none ∧ o.fecha_entrega = none) ∧
  (o.estado = "avisado" → o.fecha_entrega = none)

/-- The operation time `now` is no earlier than anything already stamped on
the order (the clock does not run backwards across operations). -/
def tsBound (o : Order) (now : Nat) : Prop :=
  o.fecha_solicitud ≤ now ∧ (∀ t ∈ o.fecha_llegada, t ≤ now) ∧
  (∀ t ∈ o.fecha_aviso, t ≤ now) ∧ (∀ t ∈ o.fecha_entrega, t ≤ now)

lemma leOpt_none_right (a : Option Nat) : leOpt a none := by
  intro x _ y hy
  simp at hy

lemma leOpt_some_right {a : Option Nat} {n : Nat} (h : ∀ x ∈ a, x ≤ n) :
    leOpt a (some n) := by
  intro x hx y hy
  rw [Option.mem_def, Option.some.injEq] at hy
  subst hy
  exact h x hx

lemma forall_mem_some {n : Nat} {P : Nat → Prop} (h : P n) :
    ∀ t ∈ (some n : Option Nat), P t := by
  intro t ht
  rw [Option.mem_def, Option.some.injEq] at ht
  subst ht
  exact h

lemma forall_mem_none {P : Nat → Prop} :
    ∀ t ∈ (none : Option Nat), P t := by
  intro t ht
  simp at ht

/-! ## The claims -/

/-- C1: for every stored order and every engine operation
(`update_order_status` with any action — `markArrived`/`markNotified`/
`markDelivered` or anything else — and `save_signature`), the status of
every order in the collection either stays as it is or moves along exactly
one forward edge of `pendiente → llegado → avisado → entregado`; no
operation moves a status backward or skips a state. -/
theorem C1_status_only_moves_forward (now : Nat) (oid action blob : String)
    (orders : List Order) :
    List.Forall₂ (fun o o' => estadoStep o.estado o'.estado) orders
      (update_order_status now oid action orders).2 ∧
    List.Forall₂ (fun o o' => o'.estado = o.estado) orders
      (save_signature oid blob orders).2 :=
  ⟨update_estado_step now oid action orders, save_signature_estado oid blob orders⟩

/-- C2: on an order whose signature is null, the `entregado` (markDelivered)
action always fails — with `signatureRequired` exactly when the status
precondition holds — and the stored collection (hence the order's status and
`fecha_entrega`) is left unchanged. -/
theorem C2_markDelivered_requires_signature (now : Nat) (oid : String)
    (pre post : List Order) (o : Order)
    (hpre : ∀ x ∈ pre, x.id ≠ oid) (ho : o.id = oid) (hf : o.firma = none) :
    (∃ e, (update_order_status now oid "entregado" (pre ++ o :: post)).1
        = .error e) ∧
    (update_order_status now oid "entregado" (pre ++ o :: post)).2
        = pre ++ o :: post ∧
    ((o.estado = "avisado" ∨ o.estado = "entregado") →
      (update_order_status now oid "entregado" (pre ++ o :: post)).1
        = .error .signatureRequired) := by
  have hU := update_firstMatch now oid "entregado" pre post o hpre ho
  rw [applyAction_entregado] at hU
  have hT : firmaTruthy o.firma = false := by rw [hf]; rfl
  simp only [hT, Bool.false_eq_true, if_false] at hU
  split_ifs at hU with hs
  · exact ⟨⟨_, by rw [hU]⟩, by rw [hU], fun _ => by rw [hU]⟩
  · exact ⟨⟨_, by rw [hU]⟩, by rw [hU], fun hcon => absurd hcon hs⟩

/-- Witness for C2 at a concrete notified order lacking a signature. -/
theorem C2_markDelivered_requires_signature_witness :
    (∃ e, (update_order_status 7 "o1" "entregado" [ordAvisado]).1 = .error e) ∧
    (update_order_status 7 "o1" "entregado" [ordAvisado]).2 = [ordAvisado] ∧
    ((ordAvisado.estado = "avisado" ∨ ordAvisado.estado = "entregado") →
      (update_order_status 7 "o1" "entregado" [ordAvisado]).1
        = .error .signatureRequired) :=
  C2_markDelivered_requires_signature 7 "o1" [] [] ordAvisado (by simp) rfl rfl

/-- C7: with the target order present, `llego` (markArrived) succeeds exactly
from status `pendiente` — setting status `llegado` and stamping
`fecha_llegada := now` — and fails with `invalidTransition` otherwise;
`avisado` (markNotified) succeeds exactly from `llegado` or `avisado` —
re-stamping `fecha_aviso` — and fails with `invalidTransition` otherwise
(in particular from `pendiente` and `entregado`); an action name outside
the known set fails with `invalidAction`. -/
theorem C7_transition_preconditions (now : Nat) (oid action : String)
    (pre post : List Order) (o : Order)
    (hpre : ∀ x ∈ pre, x.id ≠ oid) (ho : o.id = oid) :
    ((o.estado = "pendiente" →
        update_order_status now oid "llego" (pre ++ o :: post) =
          (.ok { o with estado := "llegado", fecha_llegada := some now },
            pre ++ { o with estado := "llegado", fecha_llegada := some now }
              :: post)) ∧
     (o.estado ≠ "pendiente" →
        update_order_status now oid "llego" (pre ++ o :: post) =
          (.error .invalidTransition, pre ++ o :: post))) ∧
    (((o.estado = "llegado" ∨ o.estado = "avisado") →
        update_order_status now oid "avisado" (pre ++ o :: post) =
          (.ok { o with estado := "avisado", fecha_aviso := some now },
            pre ++ { o with estado := "avisado", fecha_aviso := some now }
              :: post)) ∧
     (¬(o.estado = "llegado" ∨ o.estado = "avisado") →
        update_order_status now oid "avisado" (pre ++ o :: post) =
          (.error .invalidTransition, pre ++ o :: post))) ∧
    (action ≠ "llego" → action ≠ "avisado" → action ≠ "entregado" →
      update_order_status now oid action (pre ++ o :: post) =
        (.error .invalidAction, pre ++ o :: post)) := by
  have hU1 := update_firstMatch now oid "llego" pre post o hpre ho
  rw [applyAction_llego] at hU1
  have hU2 := update_firstMatch now oid "avisado" pre post o hpre ho
  rw [applyAction_avisado] at hU2
  refine ⟨⟨fun hp => ?_, fun hp => ?_⟩, ⟨fun hp => ?_, fun hp => ?_⟩,
    fun n1 n2 n3 => ?_⟩
  · rw [if_pos hp] at hU1; exact hU1
  · rw [if_neg hp] at hU1; exact hU1
  · rw [if_pos hp] at hU2; exact hU2
  · rw [if_neg hp] at hU2; exact hU2
  · have hU := update_firstMatch now oid action pre post o hpre ho
    rw [applyAction_unknown now action o n1 n2 n3] at hU
    exact hU

/-- Witness for C7 at a concrete pending order and the unknown action
`"foo"`. -/
theorem C7_transition_preconditions_witness :
    ((ordBase.estado = "pendiente" →
        update_order_status 5 "o1" "llego" [ordBase] =
          (.ok { ordBase with estado := "llegado", fecha_llegada := some 5 },
            [{ ordBase with estado := "llegado", fecha_llegada := some 5 }])) ∧
     (ordBase.estado ≠ "pendiente" →
        update_order_status 5 "o1" "llego" [ordBase] =
          (.error .invalidTransition, [ordBase]))) ∧
    (((ordBase.estado = "llegado" ∨ ordBase.estado = "avisado") →
        update_order_status 5 "o1" "avisado" [ordBase] =
          (.ok { ordBase with estado := "avisado", fecha_aviso := some 5 },
            [{ ordBase with estado := "avisado", fecha_aviso := some 5 }])) ∧
     (¬(ordBase.estado = "llegado" ∨ ordBase.estado = "avisado") →
        update_order_status 5 "o1" "avisado" [ordBase] =
          (.error .invalidTransition, [ordBase]))) ∧
    (("foo" : String) ≠ "llego" → ("foo" : String) ≠ "avisado" →
      ("foo" : String) ≠ "entregado" →
      update_order_status 5 "o1" "foo" [ordBase] =
        (.error .invalidAction, [ordBase])) :=
  C7_transition_preconditions 5 "o1" "foo" [] [] ordBase (by simp) rfl

/-- Counterexample to C3: `save_signature` on an order already in status
`entregado` (delivered) is NOT rejected — it succeeds and overwrites the
stored signature. -/
theorem C3_counterexample :
    ordEntregado.estado = "entregado" ∧
    (save_signature "o1" "newblob" [ordEntregado]).1
      = .ok { ordEntregado with firma := some "newblob" } ∧
    (save_signature "o1" "newblob" [ordEntregado]).2
      = [{ ordEntregado with firma := some "newblob" }] :=
  ⟨rfl, rfl, rfl⟩

/-- C3 amended: `save_signature` on the first order with the given id
succeeds in EVERY status — delivered included; the code performs no status
check — overwriting exactly the `firma` field and changing no status and no
other order. -/
theorem C3_setSignature_any_status (oid blob : String) (pre post : List Order)
    (o : Order) (hpre : ∀ x ∈ pre, x.id ≠ oid) (ho : o.id = oid) :
    save_signature oid blob (pre ++ o :: post) =
      (.ok { o with firma := some blob },
        pre ++ { o with firma := some blob } :: post) :=
  save_signature_firstMatch oid blob pre post o hpre ho

/-- Witness for the amended C3 at a concrete delivered order behind a
non-matching one. -/
theorem C3_setSignature_any_status_witness :
    save_signature "o1" "blob2" [ordOther, ordEntregado] =
      (.ok { ordEntregado with firma := some "blob2" },
        [ordOther, { ordEntregado with firma := some "blob2" }]) :=
  C3_setSignature_any_status "o1" "blob2" [ordOther] [] ordEntregado
    (by intro x hx; simp at hx; subst hx; decide) rfl

/-- C4: `create_order` on a payload whose (trimmed) product code matches no
catalog record fails with `productNotFound` and performs no persistence
write: the stored collection afterwards is exactly the one before. -/
theorem C4_unknown_product_no_write (padron : List Producto) (newId : String)
    (now : Nat) (payload : Payload) (orders : List Order)
    (h : ∀ p ∈ padron, p.codigo ≠ pyStrip payload.codigo) :
    create_order padron newId now payload orders
      = (.error .productNotFound, orders) := by
  have hf : padron.find? (fun p => p.codigo = pyStrip payload.codigo) = none := by
    rw [List.find?_eq_none]
    intro p hp
    simp [h p hp]
  unfold create_order
  rw [hf]

/-- Witness for C4 at a concrete catalog and payload. -/
theorem C4_unknown_product_no_write_witness :
    create_order [sampleProducto] "id9" 3 badPayload [ordBase]
      = (.error .productNotFound, [ordBase]) :=
  C4_unknown_product_no_write [sampleProducto] "id9" 3 badPayload [ordBase]
    (by intro p hp; simp at hp; subst hp; decide)

/-- C10: frame effects of the three mutating operations.
`update_order_status` returns a collection where only the first order with
the target id changed, and that order changed only in its status and the one
timestamp named by the action; on failure nothing changed.  `save_signature`
changes only the target's `firma`.  `create_order` on success prepends the
new order, leaving every previously stored order unchanged, and on failure
leaves the collection exactly as it was. -/
theorem C10_frame_effects (now : Nat) (oid action blob newId : String)
    (pre post : List Order) (o : Order) (padron : List Producto)
    (payload : Payload) (orders : List Order)
    (hpre : ∀ x ∈ pre, x.id ≠ oid) (ho : o.id = oid) :
    (∀ o', (update_order_status now oid action (pre ++ o :: post)).1 = .ok o' →
      (update_order_status now oid action (pre ++ o :: post)).2
          = pre ++ o' :: post ∧
      ((action = "llego" ∧
          o' = { o with estado := "llegado", fecha_llegada := some now }) ∨
       (action = "avisado" ∧
          o' = { o with estado := "avisado", fecha_aviso := some now }) ∨
       (action = "entregado" ∧
          o' = { o with estado := "entregado", fecha_entrega := some now }))) ∧
    (∀ e, (update_order_status now oid action (pre ++ o :: post)).1
          = .error e →
      (update_order_status now oid action (pre ++ o :: post)).2
          = pre ++ o :: post) ∧
    save_signature oid blob (pre ++ o :: post) =
      (.ok { o with firma := some blob },
        pre ++ { o with firma := some blob } :: post) ∧
    (∀ e, (create_order padron newId now payload orders).1 = .error e →
      (create_order padron newId now payload orders).2 = orders) ∧
    (∀ no, (create_order padron newId now payload orders).1 = .ok no →
      (create_order padron newId now payload orders).2 = no :: orders) := by
  have hU := update_firstMatch now oid action pre post o hpre ho
  refine ⟨?_, ?_, save_signature_firstMatch oid blob pre post o hpre ho,
    ?_, ?_⟩
  · intro o' h1
    cases hA : applyAction now action o with
    | error e =>
      rw [hA] at hU
      rw [hU] at h1
      simp at h1
    | ok o2 =>
      rw [hA] at hU
      rw [hU] at h1
      simp only [Except.ok.injEq] at h1
      subst h1
      refine ⟨by rw [hU], ?_⟩
      rcases applyAction_ok_cases hA with ⟨ha, _, rfl⟩ | ⟨ha, _, rfl⟩
        | ⟨ha, _, _, rfl⟩
      · exact Or.inl ⟨ha, rfl⟩
      · exact Or.inr (Or.inl ⟨ha, rfl⟩)
      · exact Or.inr (Or.inr ⟨ha, rfl⟩)
  · intro e h1
    cases hA : applyAction now action o with
    | error e2 =>
      rw [hA] at hU
      rw [hU]
    | ok o2 =>
      rw [hA] at hU
      rw [hU] at h1
      simp at h1
  · intro e h1
    rcases create_order_cases padron newId now payload orders with hE | ⟨p, hE⟩
    · rw [hE]
    · rw [hE] at h1
      simp at h1
  · intro no h1
    rcases create_order_cases padron newId now payload orders with hE | ⟨p, hE⟩
    · rw [hE] at h1
      simp at h1
    · rw [hE] at h1 ⊢
      simp only [Except.ok.injEq] at h1
      rw [h1]

/-- Witness for C10 at concrete inputs. -/
theorem C10_frame_effects_witness :
    (∀ o', (update_order_status 5 "o1" "llego" [ordBase]).1 = .ok o' →
      (update_order_status 5 "o1" "llego" [ordBase]).2 = [o'] ∧
      (("llego" = "llego" ∧
          o' = { ordBase with estado := "llegado", fecha_llegada := some 5 }) ∨
       ("llego" = "avisado" ∧
          o' = { ordBase with estado := "avisado", fecha_aviso := some 5 }) ∨
       ("llego" = "entregado" ∧
          o' = { ordBase with estado := "entregado", fecha_entrega := some 5 }))) ∧
    (∀ e, (update_order_status 5 "o1" "llego" [ordBase]).1 = .error e →
      (update_order_status 5 "o1" "llego" [ordBase]).2 = [ordBase]) ∧
    save_signature "o1" "b" [ordBase] =
      (.ok { ordBase with firma := some "b" },
        [{ ordBase with firma := some "b" }]) ∧
    (∀ e, (create_order [sampleProducto] "n1" 5 goodPayload []).1 = .error e →
      (create_order [sampleProducto] "n1" 5 goodPayload []).2 = []) ∧
    (∀ no, (create_order [sampleProducto] "n1" 5 goodPayload []).1 = .ok no →
      (create_order [sampleProducto] "n1" 5 goodPayload []).2 = [no]) :=
  C10_frame_effects 5 "o1" "llego" "b" "n1" [] [] ordBase [sampleProducto]
    goodPayload [] (by simp) rfl

/-- C5: loading a complete stored collection (all keys present, values
possibly null) and saving it back without modification reproduces exactly
the stored representation. -/
theorem C5_round_trip (l : List RawOrder) (h : ∀ r ∈ l, rawComplete r) :
    (load_orders (StoredContent.jsonArray l)).map save_orders
      = some (StoredContent.jsonArray l) := by
  simp only [load_orders, Option.map_some', save_orders, List.map_map]
  have hmap : ∀ r ∈ l, (orderToRaw ∘ normalizeOrder) r = id r := fun r hr =>
    orderToRaw_normalizeOrder r (h r hr)
  rw [List.map_congr_left hmap, List.map_id]

/-- Witness for C5 at a one-record collection with null timestamps and
signature. -/
theorem C5_round_trip_witness :
    (load_orders (StoredContent.jsonArray [rawSample])).map save_orders
      = some (StoredContent.jsonArray [rawSample]) :=
  C5_round_trip [rawSample]
    (by intro r hr; simp at hr; subst hr; exact ⟨rfl, rfl, rfl, rfl, rfl⟩)

/-- Counterexample to C6: on storage content that is corrupt but still valid
JSON — a bare number such as `42` — `load_orders` does NOT return the empty
collection: `json.load` succeeds, the `for` loop then raises an uncaught
`TypeError`, and the call crashes (`none` in the embedding). -/
theorem C6_counterexample :
    load_orders (StoredContent.jsonScalar 42) = none ∧
    load_orders (StoredContent.jsonScalar 42) ≠ some [] :=
  ⟨rfl, by simp [load_orders]⟩

/-- C6 amended: `load_orders` returns the empty collection when the file is
missing and when its content fails to parse as JSON; content that parses as
JSON but is not an array of objects crashes (only `json.JSONDecodeError` is
caught); a successfully loaded array is normalized elementwise, each missing
key among status/timestamps/signature backfilled with `pendiente` / null. -/
theorem C6_load_normalization :
    load_orders StoredContent.missing = some [] ∧
    (∀ s, load_orders (StoredContent.malformed s) = some []) ∧
    (∀ n, load_orders (StoredContent.jsonScalar n) = none) ∧
    (∀ l, load_orders (StoredContent.jsonArray l)
        = some (l.map normalizeOrder)) ∧
    (∀ r : RawOrder,
      (r.estado = none → (normalizeOrder r).estado = "pendiente") ∧
      (r.fecha_llegada = none → (normalizeOrder r).fecha_llegada = none) ∧
      (r.fecha_aviso = none → (normalizeOrder r).fecha_aviso = none) ∧
      (r.fecha_entrega = none → (normalizeOrder r).fecha_entrega = none) ∧
      (r.firma = none → (normalizeOrder r).firma = none)) := by
  refine ⟨rfl, fun s => rfl, fun n => rfl, fun l => rfl,
    fun r => ⟨?_, ?_, ?_, ?_, ?_⟩⟩ <;>
    intro h <;> simp [normalizeOrder, h]

/-- Witness for C6 at concrete storage states and a concrete legacy
record. -/
theorem C6_load_normalization_witness :
    load_orders StoredContent.missing = some [] ∧
    load_orders (StoredContent.malformed "not valid json") = some [] ∧
    load_orders (StoredContent.jsonScalar 7) = none ∧
    load_orders (StoredContent.jsonArray [rawLegacy])
        = some [normalizeOrder rawLegacy] ∧
    (normalizeOrder rawLegacy).estado = "pendiente" ∧
    (normalizeOrder rawLegacy).fecha_llegada = none ∧
    (normalizeOrder rawLegacy).fecha_aviso = none ∧
    (normalizeOrder rawLegacy).fecha_entrega = none ∧
    (normalizeOrder rawLegacy).firma = none :=
  ⟨C6_load_normalization.1, C6_load_normalization.2.1 "not valid json",
    C6_load_normalization.2.2.1 7,
    C6_load_normalization.2.2.2.1 [rawLegacy],
    (C6_load_normalization.2.2.2.2 rawLegacy).1 rfl,
    (C6_load_normalization.2.2.2.2 rawLegacy).2.1 rfl,
    (C6_load_normalization.2.2.2.2 rawLegacy).2.2.1 rfl,
    (C6_load_normalization.2.2.2.2 rawLegacy).2.2.2.1 rfl,
    (C6_load_normalization.2.2.2.2 rawLegacy).2.2.2.2 rfl⟩

/-- Counterexample to C8: `fecha_aviso` (notifiedAt) is NOT set exactly
once — an idempotent re-notify on an order already in status `avisado`
succeeds and overwrites the previously stamped `fecha_aviso` (3 becomes 7). -/
theorem C8_counterexample :
    ordAvisado.fecha_aviso = some 3 ∧
    (update_order_status 7 "o1" "avisado" [ordAvisado]).1
      = .ok { ordAvisado with fecha_aviso := some 7 } :=
  ⟨rfl, rfl⟩

/-- C8 amended: on engine-reachable orders (timestamp-monotone, with
later-stage timestamps still null) and a clock that has not run backwards,
every successful action preserves the monotonicity invariant
`fecha_solicitud ≤ fecha_llegada ≤ fecha_aviso ≤ fecha_entrega` (whenever
set) and the status/timestamp correspondence; each action writes only its
own timestamp; `fecha_llegada` once set is never overwritten (so it is set
exactly once, by the pendiente→llegado transition), while `fecha_aviso` and
`fecha_entrega` are re-stamped on idempotent re-notify/re-deliver; and a
freshly created order satisfies the invariant. -/
theorem C8_timestamps_monotone (now : Nat) (a : String) (o o' : Order)
    (hm : tsMono o) (he : estadoFields o) (hb : tsBound o now)
    (h : applyAction now a o = .ok o') :
    (tsMono o' ∧ estadoFields o') ∧
    (a ≠ "llego" → o'.fecha_llegada = o.fecha_llegada) ∧
    (a ≠ "avisado" → o'.fecha_aviso = o.fecha_aviso) ∧
    (a ≠ "entregado" → o'.fecha_entrega = o.fecha_entrega) ∧
    (o.fecha_llegada.isSome → o'.fecha_llegada = o.fecha_llegada) ∧
    (∀ newId payload product, tsMono (createdOrder newId now payload product)
      ∧ estadoFields (createdOrder newId now payload product)) := by
  have hcreate : ∀ newId payload product,
      tsMono (createdOrder newId now payload product)
        ∧ estadoFields (createdOrder newId now payload product) :=
    fun newId payload product =>
      ⟨⟨forall_mem_none, forall_mem_none, forall_mem_none,
          leOpt_none_right _, leOpt_none_right _, leOpt_none_right _⟩,
        fun _ => ⟨rfl, rfl, rfl⟩,
        fun hc => absurd hc (by decide : ("pendiente" : String) ≠ "llegado"),
        fun hc => absurd hc (by decide : ("pendiente" : String) ≠ "avisado")⟩
  rcases applyAction_ok_cases h with ⟨ha, hp, rfl⟩ | ⟨ha, hp, rfl⟩
    | ⟨ha, hp, _, rfl⟩
  · obtain ⟨hl, hv, hn⟩ := he.1 hp
    refine ⟨⟨⟨?_, ?_, ?_, ?_, ?_, ?_⟩, ?_, ?_, ?_⟩, ?_, ?_, ?_, ?_, hcreate⟩
    · exact forall_mem_some hb.1
    · exact hm.2.1
    · exact hm.2.2.1
    · show leOpt (some now) o.fecha_aviso
      rw [hv]
      exact leOpt_none_right _
    · show leOpt (some now) o.fecha_entrega
      rw [hn]
      exact leOpt_none_right _
    · exact hm.2.2.2.2.2
    · exact fun hc => absurd hc (by decide : ("llegado" : String) ≠ "pendiente")
    · exact fun _ => ⟨hv, hn⟩
    · exact fun hc => absurd hc (by decide : ("llegado" : String) ≠ "avisado")
    · exact fun hc => absurd ha hc
    · exact fun _ => rfl
    · exact fun _ => rfl
    · intro hs
      rw [hl] at hs
      simp at hs
  · have hn : o.fecha_entrega = none := by
      rcases hp with hp | hp
      · exact (he.2.1 hp).2
      · exact he.2.2 hp
    refine ⟨⟨⟨?_, ?_, ?_, ?_, ?_, ?_⟩, ?_, ?_, ?_⟩, ?_, ?_, ?_, ?_, hcreate⟩
    · exact hm.1
    · exact forall_mem_some hb.1
    · exact hm.2.2.1
    · exact leOpt_some_right hb.2.1
    · exact hm.2.2.2.2.1
    · show leOpt (some now) o.fecha_entrega
      rw [hn]
      exact leOpt_none_right _
    · exact fun hc => absurd hc (by decide : ("avisado" : String) ≠ "pendiente")
    · exact fun hc => absurd hc (by decide : ("avisado" : String) ≠ "llegado")
    · exact fun _ => hn
    · exact fun _ => rfl
    · exact fun hc => absurd ha hc
    · exact fun _ => rfl
    · exact fun _ => rfl
  · refine ⟨⟨⟨?_, ?_, ?_, ?_, ?_, ?_⟩, ?_, ?_, ?_⟩, ?_, ?_, ?_, ?_, hcreate⟩
    · exact hm.1
    · exact hm.2.1
    · exact forall_mem_some hb.1
    · exact hm.2.2.2.1
    · exact leOpt_some_right hb.2.1
    · exact leOpt_some_right hb.2.2.1
    · exact fun hc => absurd hc (by decide : ("entregado" : String) ≠ "pendiente")
    · exact fun hc => absurd hc (by decide : ("entregado" : String) ≠ "llegado")
    · exact fun hc => absurd hc (by decide : ("entregado" : String) ≠ "avisado")
    · exact fun _ => rfl
    · exact fun _ => rfl
    · exact fun hc => absurd ha hc
    · exact fun _ => rfl

/-- Witness for the amended C8: re-notifying `ordLlegado` at time 7. -/
theorem C8_timestamps_monotone_witness :
    (tsMono ordNotified7 ∧ estadoFields ordNotified7) ∧
    (("avisado" : String) ≠ "llego" →
      ordNotified7.fecha_llegada = ordLlegado.fecha_llegada) ∧
    (("avisado" : String) ≠ "avisado" →
      ordNotified7.fecha_aviso = ordLlegado.fecha_aviso) ∧
    (("avisado" : String) ≠ "entregado" →
      ordNotified7.fecha_entrega = ordLlegado.fecha_entrega) ∧
    (ordLlegado.fecha_llegada.isSome →
      ordNotified7.fecha_llegada = ordLlegado.fecha_llegada) ∧
    (∀ newId payload product, tsMono (createdOrder newId 7 payload product)
      ∧ estadoFields (createdOrder newId 7 payload product)) :=
  C8_timestamps_monotone 7 "avisado" ordLlegado ordNotified7
    ⟨forall_mem_some (by decide), forall_mem_none, forall_mem_none,
      leOpt_none_right _, leOpt_none_right _, leOpt_none_right _⟩
    ⟨fun hc => absurd hc (by decide : ("llegado" : String) ≠ "pendiente"),
      fun _ => ⟨rfl, rfl⟩,
      fun hc => absurd hc (by decide : ("llegado" : String) ≠ "avisado")⟩
    ⟨by decide, forall_mem_some (by decide), forall_mem_none,
      forall_mem_none⟩
    rfl

/-! ## Search loop lemmas -/

/-- Everything `filterLoop` returns beyond the accumulator is a matching
record augmented with its arrival channel. -/
lemma filterLoop_mem (q : String) (limit : Nat) :
    ∀ (l : List Producto) (acc : List SearchResult) (r : SearchResult),
      r ∈ filterLoop q limit l acc →
      r ∈ acc ∨ (containsSub q.toList (searchText r.item).toList = true ∧
        r.via = arrival_info r.item.marca) := by
  intro l
  induction l with
  | nil =>
    intro acc r hr
    simp only [filterLoop, List.mem_reverse] at hr
    exact Or.inl hr
  | cons item rest ih =>
    intro acc r hr
    simp only [filterLoop] at hr
    by_cases hc : containsSub q.toList (searchText item).toList
    · rw [if_pos hc] at hr
      split_ifs at hr with hl
      · rw [List.mem_reverse, List.mem_cons] at hr
        rcases hr with hr | hr
        · subst hr
          exact Or.inr ⟨hc, rfl⟩
        · exact Or.inl hr
      · rcases ih _ r hr with hr | hr
        · rw [List.mem_cons] at hr
          rcases hr with hr | hr
          · subst hr
            exact Or.inr ⟨hc, rfl⟩
          · exact Or.inl hr
        · exact Or.inr hr
    · rw [if_neg hc] at hr
      split_ifs at hr with hl
      · rw [List.mem_reverse] at hr
        exact Or.inl hr
      · exact ih _ r hr

/-- `filterLoop` returns the reversed accumulator followed by a batch of
results whose underlying records form a sublist of the remaining catalog
(catalog iteration order). -/
lemma filterLoop_sublist (q : String) (limit : Nat) :
    ∀ (l : List Producto) (acc : List SearchResult),
      ∃ rest, filterLoop q limit l acc = acc.reverse ++ rest ∧
        List.Sublist (rest.map SearchResult.item) l := by
  intro l
  induction l with
  | nil =>
    intro acc
    exact ⟨[], by simp [filterLoop], by simp⟩
  | cons item restl ih =>
    intro acc
    by_cases hc : containsSub q.toList (searchText item).toList
    · by_cases hl :
          limit ≤ ((⟨item, arrival_info item.marca⟩ : SearchResult) :: acc).length
      · refine ⟨[⟨item, arrival_info item.marca⟩], ?_, ?_⟩
        · simp only [filterLoop]
          rw [if_pos hc, if_pos hl]
          simp
        · simp
      · obtain ⟨rest, hEq, hSub⟩ := ih (⟨item, arrival_info item.marca⟩ :: acc)
        refine ⟨⟨item, arrival_info item.marca⟩ :: rest, ?_, ?_⟩
        · simp only [filterLoop]
          rw [if_pos hc, if_neg hl, hEq]
          simp
        · simpa using hSub.cons₂ item
    · by_cases hl : limit ≤ acc.length
      · refine ⟨[], ?_, by simp⟩
        simp only [filterLoop]
        rw [if_neg hc, if_pos hl]
        simp
      · obtain ⟨rest, hEq, hSub⟩ := ih acc
        refine ⟨rest, ?_, hSub.cons item⟩
        simp only [filterLoop]
        rw [if_neg hc, if_neg hl, hEq]

/-- As long as the accumulator is strictly below the limit, `filterLoop`
returns at most `limit` results. -/
lemma filterLoop_length (q : String) (limit : Nat) :
    ∀ (l : List Producto) (acc : List SearchResult), acc.length < limit →
      (filterLoop q limit l acc).length ≤ limit := by
  intro l
  induction l with
  | nil =>
    intro acc h
    simpa [filterLoop] using h.le
  | cons item restl ih =>
    intro acc h
    simp only [filterLoop]
    by_cases hc : containsSub q.toList (searchText item).toList
    · rw [if_pos hc]
      by_cases hl :
          limit ≤ ((⟨item, arrival_info item.marca⟩ : SearchResult) :: acc).length
      · rw [if_pos hl]
        simp only [List.length_reverse, List.length_cons]
        omega
      · rw [if_neg hl]
        refine ih _ ?_
        simp only [List.length_cons] at hl ⊢
        omega
    · rw [if_neg hc]
      by_cases hl : limit ≤ acc.length
      · rw [if_pos hl]
        simpa using h.le
      · rw [if_neg hl]
        exact ih _ h

/-- Counterexample to C9: with `limit = 0` and a matching record, the result
count exceeds the requested limit — the `break` test runs only after an
append, so one result is returned. -/
theorem C9_counterexample :
    (filter_products [sampleProducto] "a" 0).length = 1 ∧
    ¬ ((filter_products [sampleProducto] "a" 0).length ≤ 0) := by
  constructor
  · rfl
  · rw [show (filter_products [sampleProducto] "a" 0).length = 1 from rfl]
    omega

/-- C9 amended: the query is stripped and upper-cased; a query that strips
to empty returns `[]`; every result matches the processed query as a
substring of its record's concatenated searchable text and carries its
computed arrival channel; results follow catalog iteration order; and for
every limit ≥ 1 the result count is at most the limit (for `limit ≤ 0` a
single matching record can still be returned, as the counterexample shows).
-/
theorem C9_search_contract :
    (∀ (padron : List Producto) (query : String) (limit : Nat),
      pyStrip query = "" → filter_products padron query limit = []) ∧
    (∀ (padron : List Producto) (query : String) (limit : Nat)
        (r : SearchResult), r ∈ filter_products padron query limit →
      containsSub (pyUpper (pyStrip query)).toList (searchText r.item).toList
          = true ∧
      r.via = arrival_info r.item.marca) ∧
    (∀ (padron : List Producto) (query : String) (limit : Nat),
      List.Sublist ((filter_products padron query limit).map SearchResult.item)
        padron) ∧
    (∀ (padron : List Producto) (query : String) (limit : Nat), 1 ≤ limit →
      (filter_products padron query limit).length ≤ limit) := by
  refine ⟨?_, ?_, ?_, ?_⟩
  · intro padron query limit h
    have hq : pyUpper (pyStrip query) = "" := by rw [h]; rfl
    simp [filter_products, hq]
  · intro padron query limit r hr
    by_cases hq : pyUpper (pyStrip query) = ""
    · simp [filter_products, hq] at hr
    · simp only [filter_products, if_neg hq] at hr
      rcases filterLoop_mem _ _ _ _ _ hr with h | h
      · simp at h
      · exact h
  · intro padron query limit
    by_cases hq : pyUpper (pyStrip query) = ""
    · simp [filter_products, hq]
    · obtain ⟨rest, hEq, hSub⟩ := filterLoop_sublist (pyUpper (pyStrip query))
        limit padron []
      simp only [filter_products, if_neg hq, hEq]
      simpa using hSub
  · intro padron query limit hl
    by_cases hq : pyUpper (pyStrip query) = ""
    · simp [filter_products, hq]
    · simp only [filter_products, if_neg hq]
      exact filterLoop_length _ _ _ [] (by simpa using hl)

/-- Witness for the amended C9 at a whitespace query and at limit 1. -/
theorem C9_search_contract_witness :
    filter_products [sampleProducto] "   " 5 = [] ∧
    (filter_products [sampleProducto] "a" 1).length ≤ 1 :=
  ⟨C9_search_contract.1 [sampleProducto] "   " 5 rfl,
    C9_search_contract.2.2.2 [sampleProducto] "a" 1 (by omega)⟩
